import Mathlib

/-!
# Appointment registry (`src/index.js`): embedding and verified properties

The program keeps one module-level array `Doctor` of doctor objects; each doctor
owns an array `event` of event objects.  Five resolvers read or mutate it.

Modelling choices, all taken from the source:

* The module-level array is passed explicitly: a handler maps the store before
  the call to its result and the store after the call.
* JavaScript compares objects by reference (`ele != value` in `arrayRemove`).
  An event object is therefore a pair of an address and its three fields, and
  `arrayRemove` compares addresses.  Event objects are never written to after
  they are built, so an address determines the fields (`HeapOk`).
* A resolver result is serialised by the transport, so a result is a list of
  field records without addresses.
* Reading a property of `undefined` throws a `TypeError`; results are an
  `Except` so that the absence of such a fault is a statement, not an assumption.
* `doctor.event.push(..)` and `doctor.event = ..` act on the object returned by
  `Doctor.find`, that is on the first doctor with the given id (`setEvent`).
  Each slot of the store is a doctor object of its own that owns its event
  array, as in the seed and in every state the resolvers produce from it.
-/

namespace Registry

/-! ## Data model -/

/-- The fields of the schema type `Event` (lines 14-18). -/
structure Event where
  eventId : String
  patientName : String
  appointmentTime : String
deriving DecidableEq, Repr

/-- An event object in memory: its address (object identity) and its fields. -/
structure EventObj where
  addr : Nat
  val : Event
deriving DecidableEq, Repr

/-- A doctor object of the array `Doctor` (lines 39-58). -/
structure DoctorObj where
  doctorId : String
  doctorName : String
  clinicName : String
  specialty : String
  event : List EventObj
deriving DecidableEq, Repr

/-- The contents of the module-level array `Doctor`. -/
abbrev Store := List DoctorObj

/-- The seed data set, lines 39-58. -/
def Doctor : Store :=
  [ { doctorId := "1"
      doctorName := "Angela"
      clinicName := "CMU-clinic"
      specialty := "vaccine-department"
      event :=
        [ { addr := 1, val := { eventId := "1", patientName := "Alex", appointmentTime := "9:30" } }
        , { addr := 2, val := { eventId := "2", patientName := "Chang", appointmentTime := "15:30" } } ] } ]

/-- What the `doctor` query returns: the descriptive fields and, when the object
has one, the `event` property (the sentinel of lines 69-74 has none). -/
structure DoctorResult where
  doctorId : String
  doctorName : String
  clinicName : String
  specialty : String
  event : Option (List Event)
deriving DecidableEq, Repr

/-! ## Arguments -/

/-- Arguments of the two queries: `doctorId: ID!`. -/
structure QueryArgs where
  doctorId : String
deriving DecidableEq, Repr

/-- Arguments of `createEvent` (line 26), all non-null in the schema. -/
structure CreateEventArgs where
  doctorId : String
  eventId : String
  patientName : String
  appointmentTime : String
deriving DecidableEq, Repr

/-- The schema's `input deleteInput` (lines 32-35). -/
structure DeleteInput where
  doctorId : String
  eventId : String
deriving DecidableEq, Repr

/-- The `args` object received by the `deleteEvent` resolver.  The resolver reads
`args.doctorId` and `args.eventId`, the schema (line 28) supplies `args.input`;
a property the object does not have reads as `undefined`, here `none`. -/
structure DeleteEventArgs where
  doctorId : Option String
  eventId : Option String
  input : Option DeleteInput
deriving DecidableEq, Repr

/-- Arguments of `updatePatientName` (line 29), all non-null in the schema. -/
structure UpdatePatientNameArgs where
  doctorId : String
  eventId : String
  newPatientName : String
deriving DecidableEq, Repr

/-- The `args` object the transport builds for `deleteEvent(input: deleteInput!)`:
a single property `input`. -/
def schemaDeleteArgs (i : DeleteInput) : DeleteEventArgs :=
  { doctorId := none, eventId := none, input := some i }

/-- An `args` object carrying the two fields the resolver reads. -/
def directDeleteArgs (doctorId eventId : String) : DeleteEventArgs :=
  { doctorId := some doctorId, eventId := some eventId, input := none }

/-! ## Memory helpers -/

/-- Largest address in an event array. -/
def maxAddr (evs : List EventObj) : Nat :=
  evs.foldr (fun e m => max e.addr m) 0

/-- Address given to an object literal that is stored: one no event object of the
store has. -/
def freshAddr (s : Store) : Nat :=
  s.foldr (fun d m => max (maxAddr d.event) m) 0 + 1

/-- Assignment to the `event` array of the object `Doctor.find` returns: the first
doctor whose `doctorId` is `id`. -/
def setEvent : Store → String → List EventObj → Store
  | [], _, _ => []
  | d :: ds, id, evs =>
    if d.doctorId == id then { d with event := evs } :: ds
    else d :: setEvent ds id evs

/-- The fault raised by a property access on `undefined`. -/
def typeError : String := "TypeError"

/-- The expression `Doctor.find(..).event` as a resolver result. -/
def eventProp : Option DoctorObj → Except String (List Event)
  | some d => .ok (d.event.map EventObj.val)
  | none => .error typeError

/-- The expression `x === args.f` for a string `x` and a possibly absent `args.f`. -/
def strictEq (x : String) (a : Option String) : Bool :=
  match a with
  | some y => x == y
  | none => false

/-! ## The helper `arrayRemove` (lines 198-202) -/

/-- Keeps the elements that are not the object `value`. -/
def arrayRemove (arr : List EventObj) (value : EventObj) : List EventObj :=
  arr.filter (fun ele => ele.addr != value.addr)

/-! ## Sentinels -/

/-- Lines 82-86, 125-129, 152-156, 186-190. -/
def invalidIdEvent : Event :=
  { eventId := "Invalid ID", patientName := "null", appointmentTime := "null" }

/-- Lines 98-102. -/
def existingEvent : Event :=
  { eventId := "Existing event", patientName := "null", appointmentTime := "null" }

/-- Lines 106-110. -/
def appointmentFull : Event :=
  { eventId := "null", patientName := "null", appointmentTime := "Appointment full at that time" }

/-- Lines 138-142 and 164-168. -/
def nonExistingEvent : Event :=
  { eventId := "Non-existing event", patientName := "null", appointmentTime := "null" }

/-! ## Resolvers -/

namespace Query

/-- The object `x` of the store as the `doctor` query hands it to the transport. -/
def ofDoctorObj (x : DoctorObj) : DoctorResult :=
  { doctorId := x.doctorId, doctorName := x.doctorName, clinicName := x.clinicName,
    specialty := x.specialty, event := some (x.event.map EventObj.val) }

/-- Resolver `Query.doctor`, lines 63-77.  `return Doctor.find(..)` hands back what
`find` gives, `undefined` (here `none`) included. -/
def doctor (s : Store) (args : QueryArgs) : Except String (Option DoctorResult) :=
  if (s.find? (fun x => x.doctorId == args.doctorId)).isSome then
    .ok ((s.find? (fun x => x.doctorId == args.doctorId)).map ofDoctorObj)
  else
    .ok (some { doctorId := "Invalid ID", doctorName := "null", clinicName := "null",
                specialty := "null", event := none })

/-- Resolver `Query.event`, lines 78-89. -/
def event (s : Store) (args : QueryArgs) : Except String (List Event) :=
  if (s.find? (fun x => x.doctorId == args.doctorId)).isSome then
    eventProp (s.find? (fun x => x.doctorId == args.doctorId))
  else
    .ok [invalidIdEvent]

end Query

namespace Mutation

/-- Resolver `Mutation.createEvent`, lines 92-132. -/
def createEvent (s : Store) (args : CreateEventArgs) : Except String (List Event) × Store :=
  if (s.find? (fun x => x.doctorId == args.doctorId)).isSome then
    match s.find? (fun x => x.doctorId == args.doctorId) with
    | none => (.error typeError, s)
    | some doctor =>
      if (doctor.event.find? (fun y => y.val.eventId == args.eventId)).isSome then
        (.ok [existingEvent], s)
      else if (doctor.event.find? (fun y => y.val.appointmentTime == args.appointmentTime)).isSome then
        (.ok [appointmentFull], s)
      else
        let newEvent : EventObj :=
          { addr := freshAddr s
            val := { eventId := args.eventId, patientName := args.patientName,
                     appointmentTime := args.appointmentTime } }
        let s1 := setEvent s doctor.doctorId (doctor.event ++ [newEvent])
        (eventProp (s1.find? (fun x => x.doctorId == args.doctorId)), s1)
  else
    (.ok [invalidIdEvent], s)

/-- Resolver `Mutation.deleteEvent`, lines 133-159.  The test of line 137 and the
read of line 147 are the same `find` on the same array; they are one `match` here. -/
def deleteEvent (s : Store) (args : DeleteEventArgs) : Except String (List Event) × Store :=
  if (s.find? (fun x => strictEq x.doctorId args.doctorId)).isSome then
    match s.find? (fun x => strictEq x.doctorId args.doctorId) with
    | none => (.error typeError, s)
    | some doctor =>
      match doctor.event.find? (fun y => strictEq y.val.eventId args.eventId) with
      | none => (.ok [nonExistingEvent], s)
      | some eventToBeDeleted =>
        let s1 := setEvent s doctor.doctorId (arrayRemove doctor.event eventToBeDeleted)
        (eventProp (s1.find? (fun x => strictEq x.doctorId args.doctorId)), s1)
  else
    (.ok [invalidIdEvent], s)

/-- Resolver `Mutation.updatePatientName`, lines 160-193.  The test of line 163 and
the reads of lines 176 and 180 are the same `find` on the same array; they are one
`match` here. -/
def updatePatientName (s : Store) (args : UpdatePatientNameArgs) :
    Except String (List Event) × Store :=
  if (s.find? (fun x => x.doctorId == args.doctorId)).isSome then
    match s.find? (fun x => x.doctorId == args.doctorId) with
    | none => (.error typeError, s)
    | some doctor =>
      match doctor.event.find? (fun y => y.val.eventId == args.eventId) with
      | none => (.ok [nonExistingEvent], s)
      | some eventToBeDeleted =>
        let newEvent : EventObj :=
          { addr := freshAddr s
            val := { eventId := args.eventId, patientName := args.newPatientName,
                     appointmentTime := eventToBeDeleted.val.appointmentTime } }
        let s1 := setEvent s doctor.doctorId (arrayRemove doctor.event eventToBeDeleted)
        let s2 := setEvent s1 doctor.doctorId (arrayRemove doctor.event eventToBeDeleted ++ [newEvent])
        (eventProp (s2.find? (fun x => x.doctorId == args.doctorId)), s2)
  else
    (.ok [invalidIdEvent], s)

end Mutation

/-! ## Vocabulary of the properties -/

/-- The doctor a resolver works on: the first one whose `doctorId` is `id`. -/
def doctorOf (s : Store) (id : String) : Option DoctorObj :=
  s.find? (fun x => x.doctorId == id)

/-- The serialised form of an event array. -/
def fields (evs : List EventObj) : List Event :=
  evs.map EventObj.val

/-- Pairwise distinct `eventId` values in one event array. -/
def IdsDistinct (evs : List EventObj) : Prop :=
  (evs.map (fun e => e.val.eventId)).Nodup

/-- Pairwise distinct `appointmentTime` values in one event array. -/
def TimesDistinct (evs : List EventObj) : Prop :=
  (evs.map (fun e => e.val.appointmentTime)).Nodup

/-- Event-id uniqueness in every doctor's collection. -/
def EventIdsDistinct (s : Store) : Prop :=
  ∀ d ∈ s, IdsDistinct d.event

/-- Time-slot uniqueness in every doctor's collection. -/
def TimeSlotsDistinct (s : Store) : Prop :=
  ∀ d ∈ s, TimesDistinct d.event

/-- An address stands for one object: equal addresses carry equal fields. -/
def HeapOk (evs : List EventObj) : Prop :=
  ∀ a ∈ evs, ∀ b ∈ evs, a.addr = b.addr → a = b

/-- Every event array of the store has one object per address. -/
def StoreHeapOk (s : Store) : Prop :=
  ∀ d ∈ s, HeapOk d.event

/-- The event object `createEvent` builds at lines 115-119. -/
def createdObj (s : Store) (a : CreateEventArgs) : EventObj :=
  { addr := freshAddr s
    val := { eventId := a.eventId, patientName := a.patientName,
             appointmentTime := a.appointmentTime } }

/-- The event object `updatePatientName` builds at lines 173-177 from the event found. -/
def renamedObj (s : Store) (a : UpdatePatientNameArgs) (e : EventObj) : EventObj :=
  { addr := freshAddr s
    val := { eventId := a.eventId, patientName := a.newPatientName,
             appointmentTime := e.val.appointmentTime } }

/-- Removal as the spec words it (section 9, "matching on `eventId` explicitly"):
drop every event whose `eventId` is `id`. -/
def removeByEventId (evs : List EventObj) (id : String) : List EventObj :=
  evs.filter (fun y => y.val.eventId != id)

/-- The contents of the store as a client can read them: every doctor record with
the fields of its events, without addresses. -/
def contents (s : Store) : List DoctorResult :=
  s.map Query.ofDoctorObj

/-- What a mutation addressed to `id` may change, position by position: the
descriptive fields of every doctor stay, and a doctor whose `doctorId` is not `id`
stays whole. -/
def Frame (id : Option String) (s s' : Store) : Prop :=
  List.Forall₂
    (fun x x' => x'.doctorId = x.doctorId ∧ x'.doctorName = x.doctorName ∧
      x'.clinicName = x.clinicName ∧ x'.specialty = x.specialty ∧
      (some x.doctorId ≠ id → x' = x)) s s'

instance (evs : List EventObj) : Decidable (IdsDistinct evs) := by
  unfold IdsDistinct; infer_instance

instance (evs : List EventObj) : Decidable (TimesDistinct evs) := by
  unfold TimesDistinct; infer_instance

instance (s : Store) : Decidable (EventIdsDistinct s) := by
  unfold EventIdsDistinct; infer_instance

instance (s : Store) : Decidable (TimeSlotsDistinct s) := by
  unfold TimeSlotsDistinct; infer_instance

instance (evs : List EventObj) : Decidable (HeapOk evs) := by
  unfold HeapOk; infer_instance

/-! ## Lemmas on the memory helpers -/

theorem doctorOf_id {s : Store} {id : String} {d : DoctorObj}
    (h : doctorOf s id = some d) : d.doctorId = id := by
  have := List.find?_some h
  simpa using this

theorem doctorOf_mem {s : Store} {id : String} {d : DoctorObj}
    (h : doctorOf s id = some d) : d ∈ s :=
  List.mem_of_find?_eq_some h

theorem doctorOf_setEvent {s : Store} {id : String} {d : DoctorObj} (evs : List EventObj)
    (h : doctorOf s id = some d) :
    doctorOf (setEvent s id evs) id = some { d with event := evs } := by
  induction s with
  | nil => simp [doctorOf] at h
  | cons x xs ih =>
    unfold doctorOf at h ih ⊢
    by_cases hx : x.doctorId = id
    · simp [List.find?_cons, hx] at h
      subst h
      simp [setEvent, List.find?_cons, hx]
    · simp [List.find?_cons, hx] at h
      simp [setEvent, List.find?_cons, hx, ih h]

theorem setEvent_setEvent (s : Store) (id : String) (a b : List EventObj) :
    setEvent (setEvent s id a) id b = setEvent s id b := by
  induction s with
  | nil => rfl
  | cons x xs ih =>
    by_cases hx : x.doctorId = id
    · simp [setEvent, hx]
    · simp [setEvent, hx, ih]

theorem setEvent_same {s : Store} {id : String} {d : DoctorObj}
    (h : doctorOf s id = some d) : setEvent s id d.event = s := by
  induction s with
  | nil => rfl
  | cons x xs ih =>
    unfold doctorOf at h ih
    by_cases hx : x.doctorId = id
    · simp [List.find?_cons, hx] at h
      subst h
      subst hx
      simp [setEvent]
    · simp [List.find?_cons, hx] at h
      simp [setEvent, hx, ih h]

theorem setEvent_preserves (P : List EventObj → Prop) {s : Store} (id : String)
    {evs : List EventObj} (hs : ∀ d ∈ s, P d.event) (hevs : P evs) :
    ∀ d ∈ setEvent s id evs, P d.event := by
  induction s with
  | nil => simp [setEvent]
  | cons x xs ih =>
    have hx := hs x (List.mem_cons_self _ _)
    have hxs : ∀ d ∈ xs, P d.event := fun d hd => hs d (List.mem_cons_of_mem _ hd)
    by_cases hid : x.doctorId = id
    · intro d hd
      simp [setEvent, hid] at hd
      rcases hd with rfl | hd
      · exact hevs
      · exact hxs d hd
    · intro d hd
      simp [setEvent, hid] at hd
      rcases hd with rfl | hd
      · exact hx
      · exact ih hxs d hd

theorem strictEq_some (x y : String) : strictEq x (some y) = (x == y) := rfl

theorem strictEq_none (x : String) : strictEq x none = false := rfl

theorem find?_strictEq_none {α : Type} (f : α → String) (l : List α) :
    l.find? (fun x => strictEq (f x) none) = none := by
  simp [strictEq_none]

/-! ## The resolvers, branch by branch -/

theorem createEvent_absent {s : Store} {a : CreateEventArgs}
    (h : doctorOf s a.doctorId = none) :
    Mutation.createEvent s a = (.ok [invalidIdEvent], s) := by
  unfold doctorOf at h
  simp [Mutation.createEvent, h]

theorem createEvent_existing {s : Store} {a : CreateEventArgs} {d : DoctorObj}
    (h : doctorOf s a.doctorId = some d)
    (he : (d.event.find? (fun y => y.val.eventId == a.eventId)).isSome = true) :
    Mutation.createEvent s a = (.ok [existingEvent], s) := by
  unfold doctorOf at h
  simp [Mutation.createEvent, h, he]

theorem createEvent_full {s : Store} {a : CreateEventArgs} {d : DoctorObj}
    (h : doctorOf s a.doctorId = some d)
    (he : d.event.find? (fun y => y.val.eventId == a.eventId) = none)
    (ht : (d.event.find? (fun y => y.val.appointmentTime == a.appointmentTime)).isSome = true) :
    Mutation.createEvent s a = (.ok [appointmentFull], s) := by
  unfold doctorOf at h
  simp [Mutation.createEvent, h, he, ht]

theorem createEvent_fresh {s : Store} {a : CreateEventArgs} {d : DoctorObj}
    (h : doctorOf s a.doctorId = some d)
    (he : d.event.find? (fun y => y.val.eventId == a.eventId) = none)
    (ht : d.event.find? (fun y => y.val.appointmentTime == a.appointmentTime) = none) :
    Mutation.createEvent s a =
      (.ok (fields (d.event ++ [createdObj s a])),
       setEvent s a.doctorId (d.event ++ [createdObj s a])) := by
  have hid := doctorOf_id h
  have h2 := doctorOf_setEvent (d.event ++ [createdObj s a]) h
  unfold doctorOf at h h2
  simp only [createdObj] at h2 ⊢
  simp only [Mutation.createEvent, h, he, ht, hid, h2, eventProp, fields]
  simp

theorem deleteEvent_undefined {s : Store} {a : DeleteEventArgs} (h : a.doctorId = none) :
    Mutation.deleteEvent s a = (.ok [invalidIdEvent], s) := by
  simp [Mutation.deleteEvent, h, strictEq_none]

theorem deleteEvent_absent {s : Store} {a : DeleteEventArgs} {id : String}
    (hid : a.doctorId = some id) (h : doctorOf s id = none) :
    Mutation.deleteEvent s a = (.ok [invalidIdEvent], s) := by
  unfold doctorOf at h
  simp [Mutation.deleteEvent, hid, strictEq_some, h]

theorem deleteEvent_missing {s : Store} {a : DeleteEventArgs} {id : String} {d : DoctorObj}
    (hid : a.doctorId = some id) (h : doctorOf s id = some d)
    (he : d.event.find? (fun y => strictEq y.val.eventId a.eventId) = none) :
    Mutation.deleteEvent s a = (.ok [nonExistingEvent], s) := by
  unfold doctorOf at h
  simp only [Mutation.deleteEvent, hid, strictEq_some, h, he]
  simp

theorem deleteEvent_found {s : Store} {a : DeleteEventArgs} {id : String} {d : DoctorObj}
    {e : EventObj}
    (hid : a.doctorId = some id) (h : doctorOf s id = some d)
    (he : d.event.find? (fun y => strictEq y.val.eventId a.eventId) = some e) :
    Mutation.deleteEvent s a =
      (.ok (fields (arrayRemove d.event e)), setEvent s id (arrayRemove d.event e)) := by
  have hd := doctorOf_id h
  have h2 := doctorOf_setEvent (arrayRemove d.event e) h
  unfold doctorOf at h h2
  simp only [Mutation.deleteEvent, hid, strictEq_some, h, he, hd, h2, eventProp, fields]
  simp

theorem updatePatientName_absent {s : Store} {a : UpdatePatientNameArgs}
    (h : doctorOf s a.doctorId = none) :
    Mutation.updatePatientName s a = (.ok [invalidIdEvent], s) := by
  unfold doctorOf at h
  simp [Mutation.updatePatientName, h]

theorem updatePatientName_missing {s : Store} {a : UpdatePatientNameArgs} {d : DoctorObj}
    (h : doctorOf s a.doctorId = some d)
    (he : d.event.find? (fun y => y.val.eventId == a.eventId) = none) :
    Mutation.updatePatientName s a = (.ok [nonExistingEvent], s) := by
  unfold doctorOf at h
  simp only [Mutation.updatePatientName, h, he]
  simp

theorem updatePatientName_found {s : Store} {a : UpdatePatientNameArgs} {d : DoctorObj}
    {e : EventObj}
    (h : doctorOf s a.doctorId = some d)
    (he : d.event.find? (fun y => y.val.eventId == a.eventId) = some e) :
    Mutation.updatePatientName s a =
      (.ok (fields (arrayRemove d.event e ++ [renamedObj s a e])),
       setEvent s a.doctorId (arrayRemove d.event e ++ [renamedObj s a e])) := by
  have hd := doctorOf_id h
  have h2 := doctorOf_setEvent (arrayRemove d.event e ++ [renamedObj s a e]) h
  unfold doctorOf at h h2
  simp only [renamedObj] at h2 ⊢
  simp only [Mutation.updatePatientName, h, he, hd, setEvent_setEvent, h2, eventProp, fields]
  simp

/-! ## Distinct keys under append and removal -/

theorem arrayRemove_sublist (evs : List EventObj) (e : EventObj) :
    List.Sublist (arrayRemove evs e) evs :=
  List.filter_sublist _

theorem mem_arrayRemove {evs : List EventObj} {e y : EventObj} :
    y ∈ arrayRemove evs e ↔ y ∈ evs ∧ y.addr ≠ e.addr := by
  simp [arrayRemove]

theorem nodup_key_append (k : EventObj → String) {evs : List EventObj} {x : EventObj}
    (h : (evs.map k).Nodup) (hx : ∀ y ∈ evs, k y ≠ k x) :
    ((evs ++ [x]).map k).Nodup := by
  rw [List.map_append, List.nodup_append]
  refine ⟨h, by simp, ?_⟩
  intro a ha hb
  simp only [List.map_cons, List.map_nil, List.mem_singleton] at hb
  obtain ⟨y, hy, rfl⟩ := List.mem_map.1 ha
  exact hx y hy hb

theorem nodup_key_remove (k : EventObj → String) {evs : List EventObj} (e : EventObj)
    (h : (evs.map k).Nodup) : ((arrayRemove evs e).map k).Nodup :=
  h.sublist ((arrayRemove_sublist evs e).map k)

theorem nodup_key_replace (k : EventObj → String) {evs : List EventObj} {e x : EventObj}
    (h : (evs.map k).Nodup) (he : e ∈ evs) (hk : k x = k e) :
    ((arrayRemove evs e ++ [x]).map k).Nodup := by
  apply nodup_key_append k (nodup_key_remove k e h)
  intro y hy hyx
  obtain ⟨hmem, haddr⟩ := mem_arrayRemove.1 hy
  have : y = e := List.inj_on_of_nodup_map h hmem he (hyx.trans hk)
  exact haddr (by rw [this])

theorem find?_eventId_none {evs : List EventObj} {id : String}
    (h : evs.find? (fun y => y.val.eventId == id) = none) :
    ∀ y ∈ evs, y.val.eventId ≠ id := by
  simpa using h

theorem find?_time_none {evs : List EventObj} {t : String}
    (h : evs.find? (fun y => y.val.appointmentTime == t) = none) :
    ∀ y ∈ evs, y.val.appointmentTime ≠ t := by
  simpa using h

theorem find?_eventId_some {evs : List EventObj} {id : String} {e : EventObj}
    (h : evs.find? (fun y => y.val.eventId == id) = some e) :
    e ∈ evs ∧ e.val.eventId = id :=
  ⟨List.mem_of_find?_eq_some h, by simpa using List.find?_some h⟩

/-! ## Each mutation keeps a per-array property that append and removal keep -/

theorem createEvent_keeps (P : List EventObj → Prop) (s : Store) (a : CreateEventArgs)
    (hs : ∀ d ∈ s, P d.event)
    (happ : ∀ d ∈ s, d.event.find? (fun y => y.val.eventId == a.eventId) = none →
      d.event.find? (fun y => y.val.appointmentTime == a.appointmentTime) = none →
      P (d.event ++ [createdObj s a])) :
    ∀ d ∈ (Mutation.createEvent s a).2, P d.event := by
  cases hd : doctorOf s a.doctorId with
  | none => rw [createEvent_absent hd]; exact hs
  | some d =>
    cases he : d.event.find? (fun y => y.val.eventId == a.eventId) with
    | some e => rw [createEvent_existing hd (by simp [he])]; exact hs
    | none =>
      cases ht : d.event.find? (fun y => y.val.appointmentTime == a.appointmentTime) with
      | some e => rw [createEvent_full hd he (by simp [ht])]; exact hs
      | none =>
        rw [createEvent_fresh hd he ht]
        exact setEvent_preserves P _ hs (happ d (doctorOf_mem hd) he ht)

theorem deleteEvent_keeps (P : List EventObj → Prop) (s : Store) (a : DeleteEventArgs)
    (hs : ∀ d ∈ s, P d.event)
    (hrem : ∀ d ∈ s, ∀ e, P (arrayRemove d.event e)) :
    ∀ d ∈ (Mutation.deleteEvent s a).2, P d.event := by
  cases hid : a.doctorId with
  | none => rw [deleteEvent_undefined hid]; exact hs
  | some id =>
    cases hd : doctorOf s id with
    | none => rw [deleteEvent_absent hid hd]; exact hs
    | some d =>
      cases he : d.event.find? (fun y => strictEq y.val.eventId a.eventId) with
      | none => rw [deleteEvent_missing hid hd he]; exact hs
      | some e =>
        rw [deleteEvent_found hid hd he]
        exact setEvent_preserves P _ hs (hrem d (doctorOf_mem hd) e)

theorem updatePatientName_keeps (P : List EventObj → Prop) (s : Store)
    (a : UpdatePatientNameArgs) (hs : ∀ d ∈ s, P d.event)
    (hrep : ∀ d ∈ s, ∀ e, d.event.find? (fun y => y.val.eventId == a.eventId) = some e →
      P (arrayRemove d.event e ++ [renamedObj s a e])) :
    ∀ d ∈ (Mutation.updatePatientName s a).2, P d.event := by
  cases hd : doctorOf s a.doctorId with
  | none => rw [updatePatientName_absent hd]; exact hs
  | some d =>
    cases he : d.event.find? (fun y => y.val.eventId == a.eventId) with
    | none => rw [updatePatientName_missing hd he]; exact hs
    | some e =>
      rw [updatePatientName_found hd he]
      exact setEvent_preserves P _ hs (hrep d (doctorOf_mem hd) e he)

theorem find?_eventId_isSome {evs : List EventObj} {id : String}
    (h : ∃ e ∈ evs, e.val.eventId = id) :
    (evs.find? (fun y => y.val.eventId == id)).isSome = true := by
  simpa using h

theorem find?_time_isSome {evs : List EventObj} {t : String}
    (h : ∃ e ∈ evs, e.val.appointmentTime = t) :
    (evs.find? (fun y => y.val.appointmentTime == t)).isSome = true := by
  simpa using h

theorem find?_eventId_eq_none {evs : List EventObj} {id : String}
    (h : ∀ e ∈ evs, e.val.eventId ≠ id) :
    evs.find? (fun y => y.val.eventId == id) = none := by
  simpa using h

theorem find?_time_eq_none {evs : List EventObj} {t : String}
    (h : ∀ e ∈ evs, e.val.appointmentTime ≠ t) :
    evs.find? (fun y => y.val.appointmentTime == t) = none := by
  simpa using h

theorem doctorOf_eq_none {s : Store} {id : String} (h : ∀ x ∈ s, x.doctorId ≠ id) :
    doctorOf s id = none := by
  unfold doctorOf
  simpa using h

theorem doctorOf_isSome {s : Store} {id : String} (h : ∃ x ∈ s, x.doctorId = id) :
    ∃ d, doctorOf s id = some d := by
  cases hd : doctorOf s id with
  | some d => exact ⟨d, rfl⟩
  | none =>
    exfalso
    unfold doctorOf at hd
    obtain ⟨x, hx, hid⟩ := h
    simp at hd
    exact hd x hx hid

theorem find?_strictEq_eventId {evs : List EventObj} {id : String} :
    evs.find? (fun y => strictEq y.val.eventId (some id)) =
      evs.find? (fun y => y.val.eventId == id) := rfl

theorem arrayRemove_eq_erase {evs : List EventObj} {e : EventObj}
    (hnd : evs.Nodup) (hheap : HeapOk evs) (he : e ∈ evs) :
    arrayRemove evs e = evs.erase e := by
  rw [hnd.erase_eq_filter]
  unfold arrayRemove
  apply List.filter_congr
  intro y hy
  by_cases hye : y = e
  · simp [hye]
  · have : y.addr ≠ e.addr := fun h => hye (hheap y hy e he h)
    have h1 : (y.addr != e.addr) = true := bne_iff_ne.2 this
    have h2 : (y != e) = true := bne_iff_ne.2 hye
    rw [h1, h2]

theorem IdsDistinct.nodup {evs : List EventObj} (h : IdsDistinct evs) : evs.Nodup :=
  List.Nodup.of_map _ h

theorem find?_eventId_unique {evs : List EventObj} {id : String} {e : EventObj}
    (h : IdsDistinct evs) (he : e ∈ evs) (hid : e.val.eventId = id) :
    evs.find? (fun y => y.val.eventId == id) = some e := by
  cases hf : evs.find? (fun y => y.val.eventId == id) with
  | none => exact absurd hid (find?_eventId_none hf e he)
  | some x =>
    obtain ⟨hx, hxid⟩ := find?_eventId_some hf
    rw [List.inj_on_of_nodup_map h hx he (hxid.trans hid.symm)]

theorem doctorOf_first {s pre post : Store} {d : DoctorObj} {id : String}
    (hs : s = pre ++ d :: post) (hpre : ∀ x ∈ pre, x.doctorId ≠ id)
    (hid : d.doctorId = id) : doctorOf s id = some d := by
  subst hs
  unfold doctorOf
  have hn : pre.find? (fun x => x.doctorId == id) = none := by simpa using hpre
  simp [List.find?_append, hn, List.find?_cons, hid]

theorem removeByEventId_eq_erase {evs : List EventObj} {e : EventObj} {id : String}
    (hdist : IdsDistinct evs) (he : e ∈ evs) (hid : e.val.eventId = id) :
    removeByEventId evs id = evs.erase e := by
  rw [hdist.nodup.erase_eq_filter]
  unfold removeByEventId
  apply List.filter_congr
  intro y hy
  by_cases hye : y = e
  · subst hye
    have h2 : (y != y) = false := by simp
    rw [h2]
    simp [hid]
  · have hne : y.val.eventId ≠ id := fun h =>
      hye (List.inj_on_of_nodup_map hdist hy he (h.trans hid.symm))
    have h1 : (y.val.eventId != id) = true := bne_iff_ne.2 hne
    have h2 : (y != e) = true := bne_iff_ne.2 hye
    rw [h1, h2]

theorem arrayRemove_append_new {evs : List EventObj} {x : EventObj}
    (h : ∀ y ∈ evs, y.addr ≠ x.addr) : arrayRemove (evs ++ [x]) x = evs := by
  unfold arrayRemove
  rw [List.filter_append]
  have h1 : evs.filter (fun ele => ele.addr != x.addr) = evs :=
    List.filter_eq_self.2 (fun y hy => bne_iff_ne.2 (h y hy))
  simp [h1]

theorem find?_eventId_append_new {evs : List EventObj} {x : EventObj} {id : String}
    (h : ∀ y ∈ evs, y.val.eventId ≠ id) (hx : x.val.eventId = id) :
    (evs ++ [x]).find? (fun y => y.val.eventId == id) = some x := by
  simp [List.find?_append, find?_eventId_eq_none h, List.find?_cons, hx]

theorem contents_setEvent_congr (s : Store) (id : String) {a b : List EventObj}
    (h : fields a = fields b) :
    contents (setEvent s id a) = contents (setEvent s id b) := by
  induction s with
  | nil => rfl
  | cons x xs ih =>
    unfold contents at ih ⊢
    unfold fields at h
    by_cases hx : x.doctorId = id
    · simp [setEvent, hx, Query.ofDoctorObj, h]
    · simp [setEvent, hx, ih]

theorem arrayRemove_eventId_ne {evs : List EventObj} {e : EventObj} {id : String}
    (hdist : IdsDistinct evs) (he : e ∈ evs) (hid : e.val.eventId = id) :
    ∀ y ∈ arrayRemove evs e, y.val.eventId ≠ id := by
  intro y hy hyid
  obtain ⟨hmem, haddr⟩ := mem_arrayRemove.1 hy
  have : y = e := List.inj_on_of_nodup_map hdist hmem he (hyid.trans hid.symm)
  exact haddr (by rw [this])

theorem frame_refl (id : Option String) (s : Store) : Frame id s s := by
  unfold Frame
  induction s with
  | nil => exact List.Forall₂.nil
  | cons x xs ih => exact List.Forall₂.cons ⟨rfl, rfl, rfl, rfl, fun _ => rfl⟩ ih

theorem frame_setEvent (s : Store) (id : String) (evs : List EventObj) :
    Frame (some id) s (setEvent s id evs) := by
  induction s with
  | nil => exact List.Forall₂.nil
  | cons x xs ih =>
    by_cases hx : x.doctorId = id
    · have hs : setEvent (x :: xs) id evs = { x with event := evs } :: xs := by
        simp [setEvent, hx]
      rw [hs]
      exact List.Forall₂.cons ⟨rfl, rfl, rfl, rfl, fun hne => absurd (by rw [hx]) hne⟩
        (frame_refl _ xs)
    · have hs : setEvent (x :: xs) id evs = x :: setEvent xs id evs := by
        simp [setEvent, hx]
      rw [hs]
      exact List.Forall₂.cons ⟨rfl, rfl, rfl, rfl, fun _ => rfl⟩ ih

theorem createEvent_store (s : Store) (a : CreateEventArgs) :
    (Mutation.createEvent s a).2 = s ∨
    ∃ evs, (Mutation.createEvent s a).2 = setEvent s a.doctorId evs := by
  cases hd : doctorOf s a.doctorId with
  | none => rw [createEvent_absent hd]; exact Or.inl rfl
  | some d =>
    cases he : d.event.find? (fun y => y.val.eventId == a.eventId) with
    | some e => rw [createEvent_existing hd (by simp [he])]; exact Or.inl rfl
    | none =>
      cases ht : d.event.find? (fun y => y.val.appointmentTime == a.appointmentTime) with
      | some e => rw [createEvent_full hd he (by simp [ht])]; exact Or.inl rfl
      | none => rw [createEvent_fresh hd he ht]; exact Or.inr ⟨_, rfl⟩

theorem deleteEvent_store (s : Store) (a : DeleteEventArgs) :
    (Mutation.deleteEvent s a).2 = s ∨
    ∃ id evs, a.doctorId = some id ∧ (Mutation.deleteEvent s a).2 = setEvent s id evs := by
  cases hid : a.doctorId with
  | none => rw [deleteEvent_undefined hid]; exact Or.inl rfl
  | some id =>
    cases hd : doctorOf s id with
    | none => rw [deleteEvent_absent hid hd]; exact Or.inl rfl
    | some d =>
      cases he : d.event.find? (fun y => strictEq y.val.eventId a.eventId) with
      | none => rw [deleteEvent_missing hid hd he]; exact Or.inl rfl
      | some e => rw [deleteEvent_found hid hd he]; exact Or.inr ⟨id, _, rfl, rfl⟩

theorem updatePatientName_store (s : Store) (a : UpdatePatientNameArgs) :
    (Mutation.updatePatientName s a).2 = s ∨
    ∃ evs, (Mutation.updatePatientName s a).2 = setEvent s a.doctorId evs := by
  cases hd : doctorOf s a.doctorId with
  | none => rw [updatePatientName_absent hd]; exact Or.inl rfl
  | some d =>
    cases he : d.event.find? (fun y => y.val.eventId == a.eventId) with
    | none => rw [updatePatientName_missing hd he]; exact Or.inl rfl
    | some e => rw [updatePatientName_found hd he]; exact Or.inr ⟨_, rfl⟩

/-! ## Addresses stay well formed -/

theorem le_maxAddr {evs : List EventObj} {y : EventObj} (hy : y ∈ evs) :
    y.addr ≤ maxAddr evs := by
  induction evs with
  | nil => simp at hy
  | cons x xs ih =>
    simp only [maxAddr, List.foldr_cons] at ih ⊢
    rcases List.mem_cons.1 hy with rfl | h
    · exact le_max_left _ _
    · exact le_trans (ih h) (le_max_right _ _)

theorem addr_lt_freshAddr {s : Store} {d : DoctorObj} {y : EventObj}
    (hd : d ∈ s) (hy : y ∈ d.event) : y.addr < freshAddr s := by
  have key : maxAddr d.event ≤ s.foldr (fun d m => max (maxAddr d.event) m) 0 := by
    induction s with
    | nil => simp at hd
    | cons x xs ih =>
      simp only [List.foldr_cons]
      rcases List.mem_cons.1 hd with rfl | h
      · exact le_max_left _ _
      · exact le_trans (ih h) (le_max_right _ _)
  have := le_maxAddr hy
  unfold freshAddr
  omega

theorem heapOk_arrayRemove {evs : List EventObj} (e : EventObj) (h : HeapOk evs) :
    HeapOk (arrayRemove evs e) :=
  fun a ha b hb hab => h a (mem_arrayRemove.1 ha).1 b (mem_arrayRemove.1 hb).1 hab

theorem heapOk_append {evs : List EventObj} {x : EventObj} (h : HeapOk evs)
    (hx : ∀ y ∈ evs, y.addr ≠ x.addr) : HeapOk (evs ++ [x]) := by
  intro a ha b hb hab
  simp only [List.mem_append, List.mem_singleton] at ha hb
  rcases ha with ha | rfl <;> rcases hb with hb | rfl
  · exact h a ha b hb hab
  · exact absurd hab (hx a ha)
  · exact absurd hab.symm (hx b hb)
  · rfl

theorem storeHeapOk_seed : StoreHeapOk Doctor := by
  unfold StoreHeapOk; decide

theorem storeHeapOk_createEvent {s : Store} (h : StoreHeapOk s) (a : CreateEventArgs) :
    StoreHeapOk (Mutation.createEvent s a).2 := by
  apply createEvent_keeps HeapOk s a h
  intro d hd _ _
  apply heapOk_append (h d hd)
  intro y hy
  exact Nat.ne_of_lt (addr_lt_freshAddr hd hy)

theorem storeHeapOk_deleteEvent {s : Store} (h : StoreHeapOk s) (a : DeleteEventArgs) :
    StoreHeapOk (Mutation.deleteEvent s a).2 :=
  deleteEvent_keeps HeapOk s a h (fun d hd e => heapOk_arrayRemove e (h d hd))

theorem storeHeapOk_updatePatientName {s : Store} (h : StoreHeapOk s)
    (a : UpdatePatientNameArgs) : StoreHeapOk (Mutation.updatePatientName s a).2 := by
  apply updatePatientName_keeps HeapOk s a h
  intro d hd e _
  apply heapOk_append (heapOk_arrayRemove e (h d hd))
  intro y hy
  exact Nat.ne_of_lt (addr_lt_freshAddr hd (mem_arrayRemove.1 hy).1)

/-! ## Invariants of the store -/

/-- C1. Event-id uniqueness is an invariant: the seed has pairwise distinct `eventId`
values in each doctor's collection, and from any store in which that holds,
`createEvent`, `deleteEvent` and `updatePatientName` with any arguments (success or
sentinel) lead to a store in which it holds. -/
theorem eventId_uniqueness_invariant (s : Store) (h : EventIdsDistinct s)
    (ca : CreateEventArgs) (da : DeleteEventArgs) (ua : UpdatePatientNameArgs) :
    EventIdsDistinct Doctor ∧
    EventIdsDistinct (Mutation.createEvent s ca).2 ∧
    EventIdsDistinct (Mutation.deleteEvent s da).2 ∧
    EventIdsDistinct (Mutation.updatePatientName s ua).2 := by
  refine ⟨by decide, ?_, ?_, ?_⟩
  · apply createEvent_keeps IdsDistinct s ca h
    intro d hd he _
    exact nodup_key_append _ (h d hd) (find?_eventId_none he)
  · apply deleteEvent_keeps IdsDistinct s da h
    intro d hd e
    exact nodup_key_remove _ e (h d hd)
  · apply updatePatientName_keeps IdsDistinct s ua h
    intro d hd e he
    obtain ⟨hmem, hid⟩ := find?_eventId_some he
    exact nodup_key_replace _ (h d hd) hmem (by simp [renamedObj, hid])

/-- C1, at the seed: the three mutations, with arguments that take their success
branch, keep event ids distinct. -/
theorem eventId_uniqueness_invariant_witness :
    EventIdsDistinct Doctor ∧
    EventIdsDistinct (Mutation.createEvent Doctor ⟨"1", "3", "Sam", "11:00"⟩).2 ∧
    EventIdsDistinct (Mutation.deleteEvent Doctor (directDeleteArgs "1" "1")).2 ∧
    EventIdsDistinct (Mutation.updatePatientName Doctor ⟨"1", "2", "Lee"⟩).2 :=
  eventId_uniqueness_invariant Doctor (by decide) ⟨"1", "3", "Sam", "11:00"⟩
    (directDeleteArgs "1" "1") ⟨"1", "2", "Lee"⟩

/-- C2. Time-slot uniqueness is an invariant: the seed has pairwise distinct
`appointmentTime` values in each doctor's collection, and from any store in which
that holds, `createEvent`, `deleteEvent` and `updatePatientName` with any arguments
lead to a store in which it holds. -/
theorem timeSlot_uniqueness_invariant (s : Store) (h : TimeSlotsDistinct s)
    (ca : CreateEventArgs) (da : DeleteEventArgs) (ua : UpdatePatientNameArgs) :
    TimeSlotsDistinct Doctor ∧
    TimeSlotsDistinct (Mutation.createEvent s ca).2 ∧
    TimeSlotsDistinct (Mutation.deleteEvent s da).2 ∧
    TimeSlotsDistinct (Mutation.updatePatientName s ua).2 := by
  refine ⟨by decide, ?_, ?_, ?_⟩
  · apply createEvent_keeps TimesDistinct s ca h
    intro d hd _ ht
    exact nodup_key_append _ (h d hd) (find?_time_none ht)
  · apply deleteEvent_keeps TimesDistinct s da h
    intro d hd e
    exact nodup_key_remove _ e (h d hd)
  · apply updatePatientName_keeps TimesDistinct s ua h
    intro d hd e he
    obtain ⟨hmem, _⟩ := find?_eventId_some he
    exact nodup_key_replace _ (h d hd) hmem (by simp [renamedObj])

/-- C2, at the seed: the three mutations, with arguments that take their success
branch, keep time slots distinct. -/
theorem timeSlot_uniqueness_invariant_witness :
    TimeSlotsDistinct Doctor ∧
    TimeSlotsDistinct (Mutation.createEvent Doctor ⟨"1", "3", "Sam", "11:00"⟩).2 ∧
    TimeSlotsDistinct (Mutation.deleteEvent Doctor (directDeleteArgs "1" "1")).2 ∧
    TimeSlotsDistinct (Mutation.updatePatientName Doctor ⟨"1", "2", "Lee"⟩).2 :=
  timeSlot_uniqueness_invariant Doctor (by decide) ⟨"1", "3", "Sam", "11:00"⟩
    (directDeleteArgs "1" "1") ⟨"1", "2", "Lee"⟩

/-! ## createEvent -/

/-- C3. When the doctor is in the store (`d` is the doctor the resolver finds), no
event of `d` has the given `eventId` and none has the given `appointmentTime`,
`createEvent` returns, and stores for that doctor, the old collection followed by
the event built from the arguments: one element more, the new event last. -/
theorem createEvent_appends (s : Store) (a : CreateEventArgs) (d : DoctorObj)
    (hd : doctorOf s a.doctorId = some d)
    (hid : ∀ e ∈ d.event, e.val.eventId ≠ a.eventId)
    (ht : ∀ e ∈ d.event, e.val.appointmentTime ≠ a.appointmentTime) :
    ∃ r : List Event,
      (Mutation.createEvent s a).1 = .ok r ∧
      (doctorOf (Mutation.createEvent s a).2 a.doctorId).map (fun x => fields x.event) = some r ∧
      r = fields d.event ++ [⟨a.eventId, a.patientName, a.appointmentTime⟩] ∧
      r.length = (fields d.event).length + 1 ∧
      r.getLast? = some ⟨a.eventId, a.patientName, a.appointmentTime⟩ := by
  refine ⟨fields d.event ++ [⟨a.eventId, a.patientName, a.appointmentTime⟩], ?_, ?_, rfl, ?_, ?_⟩
  · rw [createEvent_fresh hd (find?_eventId_eq_none hid) (find?_time_eq_none ht)]
    simp [fields, createdObj]
  · rw [createEvent_fresh hd (find?_eventId_eq_none hid) (find?_time_eq_none ht)]
    simp only [doctorOf_setEvent _ hd]
    simp [fields, createdObj]
  · simp
  · simp

/-- C3, the scenario: from the seed, `createEvent("1", "3", "Sam", "11:00")` returns
the two seed events followed by the new one. -/
theorem createEvent_appends_witness :
    doctorOf Doctor "1" = some ⟨"1", "Angela", "CMU-clinic", "vaccine-department",
      [⟨1, ⟨"1", "Alex", "9:30"⟩⟩, ⟨2, ⟨"2", "Chang", "15:30"⟩⟩]⟩ ∧
    (Mutation.createEvent Doctor ⟨"1", "3", "Sam", "11:00"⟩).1 =
      .ok [⟨"1", "Alex", "9:30"⟩, ⟨"2", "Chang", "15:30"⟩, ⟨"3", "Sam", "11:00"⟩] ∧
    ∃ r : List Event,
      (Mutation.createEvent Doctor ⟨"1", "3", "Sam", "11:00"⟩).1 = .ok r ∧
      (doctorOf (Mutation.createEvent Doctor ⟨"1", "3", "Sam", "11:00"⟩).2 "1").map
        (fun x => fields x.event) = some r ∧
      r = [⟨"1", "Alex", "9:30"⟩, ⟨"2", "Chang", "15:30"⟩] ++ [⟨"3", "Sam", "11:00"⟩] ∧
      r.length = 2 + 1 ∧
      r.getLast? = some ⟨"3", "Sam", "11:00"⟩ :=
  ⟨rfl, rfl, createEvent_appends Doctor ⟨"1", "3", "Sam", "11:00"⟩
    ⟨"1", "Angela", "CMU-clinic", "vaccine-department",
      [⟨1, ⟨"1", "Alex", "9:30"⟩⟩, ⟨2, ⟨"2", "Chang", "15:30"⟩⟩]⟩ rfl (by decide) (by decide)⟩

/-- C4. When the doctor is in the store and some event of that doctor already has
the given `eventId`, `createEvent` leaves the store as it is and returns exactly the
one-element "Existing event" sentinel. -/
theorem createEvent_existing_eventId (s : Store) (a : CreateEventArgs) (d : DoctorObj)
    (hd : doctorOf s a.doctorId = some d)
    (hid : ∃ e ∈ d.event, e.val.eventId = a.eventId) :
    Mutation.createEvent s a = (.ok [⟨"Existing event", "null", "null"⟩], s) :=
  createEvent_existing hd (find?_eventId_isSome hid)

/-- C4, at the seed: creating an event with the id of the first seed event. -/
theorem createEvent_existing_eventId_witness :
    Mutation.createEvent Doctor ⟨"1", "1", "Sam", "11:00"⟩ =
      (.ok [⟨"Existing event", "null", "null"⟩], Doctor) :=
  createEvent_existing_eventId Doctor ⟨"1", "1", "Sam", "11:00"⟩
    ⟨"1", "Angela", "CMU-clinic", "vaccine-department",
      [⟨1, ⟨"1", "Alex", "9:30"⟩⟩, ⟨2, ⟨"2", "Chang", "15:30"⟩⟩]⟩ rfl
    ⟨⟨1, ⟨"1", "Alex", "9:30"⟩⟩, by decide, rfl⟩

/-- C5. When the doctor is in the store, no event of that doctor has the given
`eventId` and some event already has the given `appointmentTime`, `createEvent`
leaves the store as it is and returns exactly the one-element "Appointment full at
that time" sentinel. -/
theorem createEvent_slot_taken (s : Store) (a : CreateEventArgs) (d : DoctorObj)
    (hd : doctorOf s a.doctorId = some d)
    (hid : ∀ e ∈ d.event, e.val.eventId ≠ a.eventId)
    (ht : ∃ e ∈ d.event, e.val.appointmentTime = a.appointmentTime) :
    Mutation.createEvent s a =
      (.ok [⟨"null", "null", "Appointment full at that time"⟩], s) :=
  createEvent_full hd (find?_eventId_eq_none hid) (find?_time_isSome ht)

/-- C5, at the seed: creating a new event in the slot of the second seed event. -/
theorem createEvent_slot_taken_witness :
    Mutation.createEvent Doctor ⟨"1", "3", "Sam", "15:30"⟩ =
      (.ok [⟨"null", "null", "Appointment full at that time"⟩], Doctor) :=
  createEvent_slot_taken Doctor ⟨"1", "3", "Sam", "15:30"⟩
    ⟨"1", "Angela", "CMU-clinic", "vaccine-department",
      [⟨1, ⟨"1", "Alex", "9:30"⟩⟩, ⟨2, ⟨"2", "Chang", "15:30"⟩⟩]⟩ rfl
    (by decide) ⟨⟨2, ⟨"2", "Chang", "15:30"⟩⟩, by decide, rfl⟩

/-! ## deleteEvent through the schema -/

/-- C6. The schema's call shape on the seed: `deleteEvent` with
`args = {input: {doctorId: "1", eventId: "1"}}` reads `args.doctorId`, which the
object does not have, returns the "Invalid ID" sentinel and removes nothing; the
result is not the remaining seed event the scenario expects. -/
theorem deleteEvent_grouped_input_seed :
    Mutation.deleteEvent Doctor (schemaDeleteArgs ⟨"1", "1"⟩) =
      (.ok [⟨"Invalid ID", "null", "null"⟩], Doctor) ∧
    (Mutation.deleteEvent Doctor (schemaDeleteArgs ⟨"1", "1"⟩)).1 ≠
      .ok [⟨"2", "Chang", "15:30"⟩] := by
  have h : Mutation.deleteEvent Doctor (schemaDeleteArgs ⟨"1", "1"⟩) =
      (.ok [⟨"Invalid ID", "null", "null"⟩], Doctor) := rfl
  refine ⟨h, ?_⟩
  rw [h]
  intro hc
  simp at hc

/-! ## updatePatientName -/

/-- C7. When the doctor is in the store (`d` is the doctor the resolver finds), `e` is
an event of `d` with the given `eventId`, and the `eventId` values of `d` are
pairwise distinct (addresses standing for one object each), `updatePatientName`
returns, and stores for that doctor, the old collection without `e`, in its order,
followed by the event with the `eventId` and `appointmentTime` of `e` and the new
patient name: the renamed event is last and the count is that of the old collection. -/
theorem updatePatientName_moves_renamed (s : Store) (a : UpdatePatientNameArgs)
    (d : DoctorObj) (e : EventObj)
    (hd : doctorOf s a.doctorId = some d)
    (he : e ∈ d.event) (hid : e.val.eventId = a.eventId)
    (hdist : IdsDistinct d.event) (hheap : HeapOk d.event) :
    ∃ r : List Event,
      (Mutation.updatePatientName s a).1 = .ok r ∧
      (doctorOf (Mutation.updatePatientName s a).2 a.doctorId).map (fun x => fields x.event)
        = some r ∧
      r = fields (d.event.erase e) ++
        [⟨e.val.eventId, a.newPatientName, e.val.appointmentTime⟩] ∧
      r.getLast? = some ⟨e.val.eventId, a.newPatientName, e.val.appointmentTime⟩ ∧
      r.length = (fields d.event).length := by
  have hf := find?_eventId_unique hdist he hid
  have hrem := arrayRemove_eq_erase hdist.nodup hheap he
  refine ⟨fields (d.event.erase e) ++
    [⟨e.val.eventId, a.newPatientName, e.val.appointmentTime⟩], ?_, ?_, rfl, ?_, ?_⟩
  · rw [updatePatientName_found hd hf, hrem]
    simp [fields, renamedObj, hid]
  · rw [updatePatientName_found hd hf, hrem]
    simp only [doctorOf_setEvent _ hd]
    simp [fields, renamedObj, hid]
  · simp
  · have hpos : 0 < d.event.length := List.length_pos_of_mem he
    simp only [fields, List.length_append, List.length_map, List.length_singleton,
      List.length_erase_of_mem he]
    omega

/-- C7, the scenario: from the seed, `updatePatientName("1", "2", "Lee")` returns the
first seed event followed by event "2" under the new name and its old time. -/
theorem updatePatientName_moves_renamed_witness :
    (Mutation.updatePatientName Doctor ⟨"1", "2", "Lee"⟩).1 =
      .ok [⟨"1", "Alex", "9:30"⟩, ⟨"2", "Lee", "15:30"⟩] ∧
    ∃ r : List Event,
      (Mutation.updatePatientName Doctor ⟨"1", "2", "Lee"⟩).1 = .ok r ∧
      (doctorOf (Mutation.updatePatientName Doctor ⟨"1", "2", "Lee"⟩).2 "1").map
        (fun x => fields x.event) = some r ∧
      r = fields ([⟨1, ⟨"1", "Alex", "9:30"⟩⟩, ⟨2, ⟨"2", "Chang", "15:30"⟩⟩].erase
            ⟨2, ⟨"2", "Chang", "15:30"⟩⟩) ++ [⟨"2", "Lee", "15:30"⟩] ∧
      r.getLast? = some ⟨"2", "Lee", "15:30"⟩ ∧
      r.length = (fields [⟨1, ⟨"1", "Alex", "9:30"⟩⟩, ⟨2, ⟨"2", "Chang", "15:30"⟩⟩]).length :=
  ⟨rfl, updatePatientName_moves_renamed Doctor ⟨"1", "2", "Lee"⟩
    ⟨"1", "Angela", "CMU-clinic", "vaccine-department",
      [⟨1, ⟨"1", "Alex", "9:30"⟩⟩, ⟨2, ⟨"2", "Chang", "15:30"⟩⟩]⟩
    ⟨2, ⟨"2", "Chang", "15:30"⟩⟩ rfl (by decide) rfl (by decide) (by decide)⟩

/-! ## Unknown doctor -/

/-- C8. For a `doctorId` that no doctor of the store has, the `doctor` query returns
the record with `doctorId` "Invalid ID" and the descriptive fields "null", and the
`event` query returns exactly the one-element "Invalid ID" sentinel; both return a
value, neither throws. -/
theorem queries_invalid_id (s : Store) (a : QueryArgs)
    (h : ∀ x ∈ s, x.doctorId ≠ a.doctorId) :
    Query.doctor s a = .ok (some ⟨"Invalid ID", "null", "null", "null", none⟩) ∧
    Query.event s a = .ok [⟨"Invalid ID", "null", "null"⟩] := by
  have hn := doctorOf_eq_none h
  unfold doctorOf at hn
  constructor
  · simp [Query.doctor, hn]
  · simp [Query.event, hn, invalidIdEvent]

/-- C8, at the seed: doctor "2" is not in the store. -/
theorem queries_invalid_id_witness :
    Query.doctor Doctor ⟨"2"⟩ = .ok (some ⟨"Invalid ID", "null", "null", "null", none⟩) ∧
    Query.event Doctor ⟨"2"⟩ = .ok [⟨"Invalid ID", "null", "null"⟩] :=
  queries_invalid_id Doctor ⟨"2"⟩ (by decide)

/-- C9. For a `doctorId` that no doctor of the store has, `createEvent`, `deleteEvent`
and `updatePatientName` each return exactly the one-element "Invalid ID" sentinel and
leave the store as it is, whatever the other arguments are. -/
theorem mutations_invalid_id (s : Store) (ca : CreateEventArgs) (da : DeleteEventArgs)
    (ua : UpdatePatientNameArgs)
    (hc : ∀ x ∈ s, x.doctorId ≠ ca.doctorId)
    (hdel : ∀ x ∈ s, some x.doctorId ≠ da.doctorId)
    (hu : ∀ x ∈ s, x.doctorId ≠ ua.doctorId) :
    Mutation.createEvent s ca = (.ok [⟨"Invalid ID", "null", "null"⟩], s) ∧
    Mutation.deleteEvent s da = (.ok [⟨"Invalid ID", "null", "null"⟩], s) ∧
    Mutation.updatePatientName s ua = (.ok [⟨"Invalid ID", "null", "null"⟩], s) := by
  refine ⟨createEvent_absent (doctorOf_eq_none hc), ?_,
    updatePatientName_absent (doctorOf_eq_none hu)⟩
  cases hid : da.doctorId with
  | none => exact deleteEvent_undefined hid
  | some id =>
    apply deleteEvent_absent hid
    apply doctorOf_eq_none
    intro x hx hxid
    exact hdel x hx (by rw [hid, hxid])

/-- C9, at the seed: doctor "2" is not in the store. -/
theorem mutations_invalid_id_witness :
    Mutation.createEvent Doctor ⟨"2", "3", "Sam", "11:00"⟩ =
      (.ok [⟨"Invalid ID", "null", "null"⟩], Doctor) ∧
    Mutation.deleteEvent Doctor (directDeleteArgs "2" "1") =
      (.ok [⟨"Invalid ID", "null", "null"⟩], Doctor) ∧
    Mutation.updatePatientName Doctor ⟨"2", "2", "Lee"⟩ =
      (.ok [⟨"Invalid ID", "null", "null"⟩], Doctor) :=
  mutations_invalid_id Doctor ⟨"2", "3", "Sam", "11:00"⟩ (directDeleteArgs "2" "1")
    ⟨"2", "2", "Lee"⟩ (by decide) (by decide) (by decide)

/-! ## deleteEvent, event not found -/

/-- C10. When `args.doctorId` and `args.eventId` are present, the doctor is in the
store (`d` is the doctor the resolver finds) and no event of `d` has that `eventId`,
`deleteEvent` leaves the whole store as it is and returns exactly the one-element
"Non-existing event" sentinel. -/
theorem deleteEvent_non_existing (s : Store) (a : DeleteEventArgs) (id eid : String)
    (d : DoctorObj)
    (hid : a.doctorId = some id) (heid : a.eventId = some eid)
    (hd : doctorOf s id = some d)
    (he : ∀ e ∈ d.event, e.val.eventId ≠ eid) :
    Mutation.deleteEvent s a = (.ok [⟨"Non-existing event", "null", "null"⟩], s) := by
  apply deleteEvent_missing hid hd
  rw [heid, find?_strictEq_eventId]
  exact find?_eventId_eq_none he

/-- C10, at the seed: doctor "1" has no event "7". -/
theorem deleteEvent_non_existing_witness :
    Mutation.deleteEvent Doctor (directDeleteArgs "1" "7") =
      (.ok [⟨"Non-existing event", "null", "null"⟩], Doctor) :=
  deleteEvent_non_existing Doctor (directDeleteArgs "1" "7") "1" "7"
    ⟨"1", "Angela", "CMU-clinic", "vaccine-department",
      [⟨1, ⟨"1", "Alex", "9:30"⟩⟩, ⟨2, ⟨"2", "Chang", "15:30"⟩⟩]⟩ rfl rfl rfl (by decide)

/-! ## updatePatientName, event not found -/

/-- C11. When the doctor is in the store (`d` is the doctor the resolver finds) and no
event of `d` has the given `eventId`, `updatePatientName` leaves the store as it is
and returns exactly the one-element "Non-existing event" sentinel, whatever the new
patient name is. -/
theorem updatePatientName_non_existing (s : Store) (a : UpdatePatientNameArgs)
    (d : DoctorObj) (hd : doctorOf s a.doctorId = some d)
    (he : ∀ e ∈ d.event, e.val.eventId ≠ a.eventId) :
    Mutation.updatePatientName s a =
      (.ok [⟨"Non-existing event", "null", "null"⟩], s) :=
  updatePatientName_missing hd (find?_eventId_eq_none he)

/-- C11, at the seed: doctor "1" has no event "7". -/
theorem updatePatientName_non_existing_witness :
    Mutation.updatePatientName Doctor ⟨"1", "7", "Lee"⟩ =
      (.ok [⟨"Non-existing event", "null", "null"⟩], Doctor) :=
  updatePatientName_non_existing Doctor ⟨"1", "7", "Lee"⟩
    ⟨"1", "Angela", "CMU-clinic", "vaccine-department",
      [⟨1, ⟨"1", "Alex", "9:30"⟩⟩, ⟨2, ⟨"2", "Chang", "15:30"⟩⟩]⟩ rfl (by decide)

/-! ## Queries, doctor found -/

/-- C12. When `d` is the first doctor of the store with the given `doctorId` (the
doctors `pre` before it have other ids), the `doctor` query returns the record of
`d` with its event collection, and the `event` query returns exactly the events of
`d` in their stored order (an empty collection included).  Both resolvers are
functions of the store that write nothing. -/
theorem queries_found (s pre post : Store) (d : DoctorObj) (a : QueryArgs)
    (hs : s = pre ++ d :: post)
    (hpre : ∀ x ∈ pre, x.doctorId ≠ a.doctorId)
    (hid : d.doctorId = a.doctorId) :
    Query.doctor s a =
      .ok (some ⟨d.doctorId, d.doctorName, d.clinicName, d.specialty,
        some (d.event.map EventObj.val)⟩) ∧
    Query.event s a = .ok (d.event.map EventObj.val) := by
  have hf : s.find? (fun x => x.doctorId == a.doctorId) = some d :=
    doctorOf_first hs hpre hid
  constructor
  · simp [Query.doctor, hf, Query.ofDoctorObj]
  · simp [Query.event, hf, eventProp]

/-- C12, at the seed: doctor "1" is the first (and only) doctor. -/
theorem queries_found_witness :
    Query.doctor Doctor ⟨"1"⟩ =
      .ok (some ⟨"1", "Angela", "CMU-clinic", "vaccine-department",
        some [⟨"1", "Alex", "9:30"⟩, ⟨"2", "Chang", "15:30"⟩]⟩) ∧
    Query.event Doctor ⟨"1"⟩ = .ok [⟨"1", "Alex", "9:30"⟩, ⟨"2", "Chang", "15:30"⟩] :=
  queries_found Doctor [] []
    ⟨"1", "Angela", "CMU-clinic", "vaccine-department",
      [⟨1, ⟨"1", "Alex", "9:30"⟩⟩, ⟨2, ⟨"2", "Chang", "15:30"⟩⟩]⟩ ⟨"1"⟩ rfl
    (by simp) rfl

/-! ## deleteEvent, every call through the schema -/

/-- C13. For every store and every grouped input, `deleteEvent` with the `args` object
the schema builds (`input` only, no top-level `doctorId`) returns exactly the
one-element "Invalid ID" sentinel and leaves the store as it is, whichever doctor and
event the input names. -/
theorem deleteEvent_grouped_input_invalid (s : Store) (i : DeleteInput) :
    Mutation.deleteEvent s (schemaDeleteArgs i) =
      (.ok [⟨"Invalid ID", "null", "null"⟩], s) :=
  deleteEvent_undefined rfl

/-! ## Order of the checks in createEvent -/

/-- C14. When the doctor is in the store, some event of that doctor has the given
`eventId` and some event (the same or another) has the given `appointmentTime`,
`createEvent` returns the "Existing event" sentinel, not the "Appointment full at
that time" one. -/
theorem createEvent_checks_in_order (s : Store) (a : CreateEventArgs) (d : DoctorObj)
    (hd : doctorOf s a.doctorId = some d)
    (hid : ∃ e ∈ d.event, e.val.eventId = a.eventId)
    (ht : ∃ e ∈ d.event, e.val.appointmentTime = a.appointmentTime) :
    (Mutation.createEvent s a).1 = .ok [⟨"Existing event", "null", "null"⟩] ∧
    (Mutation.createEvent s a).1 ≠ .ok [⟨"null", "null", "Appointment full at that time"⟩] := by
  have h := createEvent_existing hd (find?_eventId_isSome hid)
  have _ := ht
  rw [h]
  refine ⟨rfl, ?_⟩
  intro hc
  simp [existingEvent] at hc

/-- C14, at the seed: the id of the first seed event with the slot of the second. -/
theorem createEvent_checks_in_order_witness :
    (Mutation.createEvent Doctor ⟨"1", "1", "Sam", "15:30"⟩).1 =
      .ok [⟨"Existing event", "null", "null"⟩] ∧
    (Mutation.createEvent Doctor ⟨"1", "1", "Sam", "15:30"⟩).1 ≠
      .ok [⟨"null", "null", "Appointment full at that time"⟩] :=
  createEvent_checks_in_order Doctor ⟨"1", "1", "Sam", "15:30"⟩
    ⟨"1", "Angela", "CMU-clinic", "vaccine-department",
      [⟨1, ⟨"1", "Alex", "9:30"⟩⟩, ⟨2, ⟨"2", "Chang", "15:30"⟩⟩]⟩ rfl
    ⟨⟨1, ⟨"1", "Alex", "9:30"⟩⟩, by decide, rfl⟩
    ⟨⟨2, ⟨"2", "Chang", "15:30"⟩⟩, by decide, rfl⟩

/-! ## Removal by identity and removal by `eventId` -/

/-- C15. For a doctor `d` whose `eventId` values are pairwise distinct (addresses
standing for one object each) and an `eventId` present in its collection,
`deleteEvent` called with `args.doctorId` and `args.eventId` stores and returns the
old collection with every event of that `eventId` filtered out: what `arrayRemove`
of the found object leaves is `removeByEventId`.  Exactly one event goes, the length
drops by one, and the rest keeps its order. -/
theorem deleteEvent_identity_removal_is_eventId_removal (s : Store) (a : DeleteEventArgs)
    (did eid : String) (d : DoctorObj)
    (hid : a.doctorId = some did) (heid : a.eventId = some eid)
    (hd : doctorOf s did = some d)
    (hdist : IdsDistinct d.event) (hheap : HeapOk d.event)
    (hin : ∃ e ∈ d.event, e.val.eventId = eid) :
    (doctorOf (Mutation.deleteEvent s a).2 did).map (fun x => x.event)
      = some (removeByEventId d.event eid) ∧
    (Mutation.deleteEvent s a).1 = .ok (fields (removeByEventId d.event eid)) ∧
    (∃ e ∈ d.event, e.val.eventId = eid ∧
      d.event.find? (fun y => strictEq y.val.eventId a.eventId) = some e ∧
      arrayRemove d.event e = removeByEventId d.event eid ∧
      List.Perm d.event (e :: removeByEventId d.event eid)) ∧
    (removeByEventId d.event eid).length + 1 = d.event.length ∧
    List.Sublist (removeByEventId d.event eid) d.event := by
  obtain ⟨e, he, hee⟩ := hin
  have hf : d.event.find? (fun y => strictEq y.val.eventId a.eventId) = some e := by
    rw [heid, find?_strictEq_eventId]
    exact find?_eventId_unique hdist he hee
  have h1 := arrayRemove_eq_erase hdist.nodup hheap he
  have h2 := removeByEventId_eq_erase hdist he hee
  have hdel := deleteEvent_found hid hd hf
  refine ⟨?_, ?_, ⟨e, he, hee, hf, by rw [h1, h2], ?_⟩, ?_, ?_⟩
  · rw [hdel]
    simp only [doctorOf_setEvent _ hd]
    simp [h1, h2]
  · rw [hdel, h1, h2]
  · rw [h2]
    exact List.perm_cons_erase he
  · rw [h2, List.length_erase_of_mem he]
    have hpos : 0 < d.event.length := List.length_pos_of_mem he
    omega
  · rw [h2]
    exact List.erase_sublist e d.event

/-- C15, at the seed: deleting event "1" of doctor "1". -/
theorem deleteEvent_identity_removal_is_eventId_removal_witness :
    (doctorOf (Mutation.deleteEvent Doctor (directDeleteArgs "1" "1")).2 "1").map
      (fun x => x.event) = some [⟨2, ⟨"2", "Chang", "15:30"⟩⟩] ∧
    (Mutation.deleteEvent Doctor (directDeleteArgs "1" "1")).1 =
      .ok [⟨"2", "Chang", "15:30"⟩] :=
  have h := deleteEvent_identity_removal_is_eventId_removal Doctor
    (directDeleteArgs "1" "1") "1" "1"
    ⟨"1", "Angela", "CMU-clinic", "vaccine-department",
      [⟨1, ⟨"1", "Alex", "9:30"⟩⟩, ⟨2, ⟨"2", "Chang", "15:30"⟩⟩]⟩ rfl rfl rfl
    (by decide) (by decide) ⟨⟨1, ⟨"1", "Alex", "9:30"⟩⟩, by decide, rfl⟩
  ⟨h.1, h.2.1⟩

/-! ## Create, then delete -/

/-- C16. After a `createEvent` that succeeds (doctor `d` found, `eventId` new for `d`,
slot free), `deleteEvent` with the same `doctorId` and `eventId` in `args.doctorId`
and `args.eventId` returns the original collection of `d` and leaves the store equal
to the store before the `createEvent`.  The uniqueness invariant is not needed. -/
theorem create_then_delete_roundtrip (s : Store) (a : CreateEventArgs) (da : DeleteEventArgs)
    (d : DoctorObj)
    (hd : doctorOf s a.doctorId = some d)
    (hid : ∀ e ∈ d.event, e.val.eventId ≠ a.eventId)
    (ht : ∀ e ∈ d.event, e.val.appointmentTime ≠ a.appointmentTime)
    (hda : da.doctorId = some a.doctorId) (hde : da.eventId = some a.eventId) :
    Mutation.deleteEvent (Mutation.createEvent s a).2 da = (.ok (fields d.event), s) := by
  rw [createEvent_fresh hd (find?_eventId_eq_none hid) (find?_time_eq_none ht)]
  have hd1 := doctorOf_setEvent (d.event ++ [createdObj s a]) hd
  have hf : (d.event ++ [createdObj s a]).find?
      (fun y => strictEq y.val.eventId da.eventId) = some (createdObj s a) := by
    rw [hde, find?_strictEq_eventId]
    exact find?_eventId_append_new hid rfl
  have hrem : arrayRemove (d.event ++ [createdObj s a]) (createdObj s a) = d.event :=
    arrayRemove_append_new
      (fun y hy => Nat.ne_of_lt (addr_lt_freshAddr (doctorOf_mem hd) hy))
  rw [deleteEvent_found hda hd1 hf]
  simp only [hrem, setEvent_setEvent, setEvent_same hd]

/-- C16, at the seed: create event "3", then delete it. -/
theorem create_then_delete_roundtrip_witness :
    Mutation.deleteEvent (Mutation.createEvent Doctor ⟨"1", "3", "Sam", "11:00"⟩).2
      (directDeleteArgs "1" "3") =
      (.ok [⟨"1", "Alex", "9:30"⟩, ⟨"2", "Chang", "15:30"⟩], Doctor) :=
  create_then_delete_roundtrip Doctor ⟨"1", "3", "Sam", "11:00"⟩ (directDeleteArgs "1" "3")
    ⟨"1", "Angela", "CMU-clinic", "vaccine-department",
      [⟨1, ⟨"1", "Alex", "9:30"⟩⟩, ⟨2, ⟨"2", "Chang", "15:30"⟩⟩]⟩ rfl
    (by decide) (by decide) rfl rfl

/-! ## Renaming twice -/

/-- C17. On a store with pairwise distinct `eventId` values in every collection,
`updatePatientName` applied twice with the same arguments returns the same collection
as applied once and leaves a store with the same contents: the first call puts the
renamed event last, the second finds it there and rebuilds it with the same fields. -/
theorem updatePatientName_idempotent (s : Store) (a : UpdatePatientNameArgs)
    (h : EventIdsDistinct s) :
    (Mutation.updatePatientName (Mutation.updatePatientName s a).2 a).1 =
      (Mutation.updatePatientName s a).1 ∧
    contents (Mutation.updatePatientName (Mutation.updatePatientName s a).2 a).2 =
      contents (Mutation.updatePatientName s a).2 := by
  cases hd : doctorOf s a.doctorId with
  | none =>
    rw [updatePatientName_absent hd]
    simp only
    rw [updatePatientName_absent hd]
    exact ⟨rfl, rfl⟩
  | some d =>
    cases he : d.event.find? (fun y => y.val.eventId == a.eventId) with
    | none =>
      rw [updatePatientName_missing hd he]
      simp only
      rw [updatePatientName_missing hd he]
      exact ⟨rfl, rfl⟩
    | some e =>
      obtain ⟨hmem, hid⟩ := find?_eventId_some he
      have hdist := h d (doctorOf_mem hd)
      have hd1 := doctorOf_setEvent (arrayRemove d.event e ++ [renamedObj s a e]) hd
      have hf1 : (arrayRemove d.event e ++ [renamedObj s a e]).find?
          (fun y => y.val.eventId == a.eventId) = some (renamedObj s a e) :=
        find?_eventId_append_new (arrayRemove_eventId_ne hdist hmem hid) rfl
      have hrm : arrayRemove (arrayRemove d.event e ++ [renamedObj s a e]) (renamedObj s a e)
          = arrayRemove d.event e :=
        arrayRemove_append_new (fun y hy =>
          Nat.ne_of_lt (addr_lt_freshAddr (doctorOf_mem hd) (mem_arrayRemove.1 hy).1))
      have hfld : ∀ s1 : Store,
          fields (arrayRemove d.event e ++ [renamedObj s1 a (renamedObj s a e)]) =
          fields (arrayRemove d.event e ++ [renamedObj s a e]) := by
        intro s1
        simp [fields, renamedObj]
      rw [updatePatientName_found hd he]
      simp only
      rw [updatePatientName_found hd1 hf1]
      simp only [hrm, setEvent_setEvent]
      exact ⟨by rw [hfld], contents_setEvent_congr s a.doctorId (hfld _)⟩

/-- C17, at the seed: renaming event "2" to "Lee" twice. -/
theorem updatePatientName_idempotent_witness :
    (Mutation.updatePatientName (Mutation.updatePatientName Doctor ⟨"1", "2", "Lee"⟩).2
      ⟨"1", "2", "Lee"⟩).1 = (Mutation.updatePatientName Doctor ⟨"1", "2", "Lee"⟩).1 ∧
    contents (Mutation.updatePatientName (Mutation.updatePatientName Doctor
      ⟨"1", "2", "Lee"⟩).2 ⟨"1", "2", "Lee"⟩).2 =
      contents (Mutation.updatePatientName Doctor ⟨"1", "2", "Lee"⟩).2 :=
  updatePatientName_idempotent Doctor ⟨"1", "2", "Lee"⟩ (by decide)

/-! ## Frame of the mutations -/

/-- C18. A mutation touches only the event collection of the doctor it addresses:
after `createEvent`, `deleteEvent` or `updatePatientName` with any arguments the
store has as many doctors as before, in the same order; every doctor keeps its
`doctorId`, `doctorName`, `clinicName` and `specialty`; and every doctor whose
`doctorId` differs from the one in the arguments is unchanged, events included. -/
theorem mutations_frame (s : Store) (ca : CreateEventArgs) (da : DeleteEventArgs)
    (ua : UpdatePatientNameArgs) :
    ((Mutation.createEvent s ca).2.length = s.length ∧
      Frame (some ca.doctorId) s (Mutation.createEvent s ca).2) ∧
    ((Mutation.deleteEvent s da).2.length = s.length ∧
      Frame da.doctorId s (Mutation.deleteEvent s da).2) ∧
    ((Mutation.updatePatientName s ua).2.length = s.length ∧
      Frame (some ua.doctorId) s (Mutation.updatePatientName s ua).2) := by
  have hc : Frame (some ca.doctorId) s (Mutation.createEvent s ca).2 := by
    rcases createEvent_store s ca with h | ⟨evs, h⟩
    · rw [h]; exact frame_refl _ s
    · rw [h]; exact frame_setEvent s _ evs
  have hdel : Frame da.doctorId s (Mutation.deleteEvent s da).2 := by
    rcases deleteEvent_store s da with h | ⟨id, evs, hid, h⟩
    · rw [h]; exact frame_refl _ s
    · rw [h, hid]; exact frame_setEvent s _ evs
  have hu : Frame (some ua.doctorId) s (Mutation.updatePatientName s ua).2 := by
    rcases updatePatientName_store s ua with h | ⟨evs, h⟩
    · rw [h]; exact frame_refl _ s
    · rw [h]; exact frame_setEvent s _ evs
  exact ⟨⟨(List.Forall₂.length_eq hc).symm, hc⟩, ⟨(List.Forall₂.length_eq hdel).symm, hdel⟩,
    ⟨(List.Forall₂.length_eq hu).symm, hu⟩⟩

/-! ## Ambiguity of the in-band sentinels -/

/-- C19. A successful `createEvent` can return the value of an error sentinel: for a
doctor `d` with an empty collection, `createEvent` with `eventId` "Existing event",
`patientName` "null" and `appointmentTime` "null" passes both checks, stores the
event (the store changes) and returns the one-element sequence that the
duplicate-`eventId` error returns; repeated on the new store, the same call returns
the same value and leaves the store as it is.  The result does not tell whether the
store was written. -/
theorem createEvent_result_ambiguous (s : Store) (did : String) (d : DoctorObj)
    (hd : doctorOf s did = some d) (hemp : d.event = []) :
    (Mutation.createEvent s ⟨did, "Existing event", "null", "null"⟩).1 =
      .ok [⟨"Existing event", "null", "null"⟩] ∧
    (doctorOf (Mutation.createEvent s ⟨did, "Existing event", "null", "null"⟩).2 did).map
      (fun x => fields x.event) = some [⟨"Existing event", "null", "null"⟩] ∧
    (Mutation.createEvent s ⟨did, "Existing event", "null", "null"⟩).2 ≠ s ∧
    Mutation.createEvent (Mutation.createEvent s ⟨did, "Existing event", "null", "null"⟩).2
      ⟨did, "Existing event", "null", "null"⟩ =
      (.ok [⟨"Existing event", "null", "null"⟩],
       (Mutation.createEvent s ⟨did, "Existing event", "null", "null"⟩).2) := by
  have hd0 : doctorOf s (CreateEventArgs.mk did "Existing event" "null" "null").doctorId
      = some d := hd
  have hc := createEvent_fresh (a := ⟨did, "Existing event", "null", "null"⟩) hd0
    (by simp [hemp]) (by simp [hemp])
  have hd1 := doctorOf_setEvent
    (d.event ++ [createdObj s ⟨did, "Existing event", "null", "null"⟩]) hd
  rw [hc]
  simp only at hd1 ⊢
  refine ⟨by simp [fields, hemp, createdObj], ?_, ?_, ?_⟩
  · rw [hd1]
    simp [fields, hemp, createdObj]
  · intro hs
    rw [hs, hd] at hd1
    have hev := congrArg (fun x => x.event) (Option.some.inj hd1)
    simp [hemp] at hev
  · exact createEvent_existing (a := ⟨did, "Existing event", "null", "null"⟩) hd1
      (by simp [createdObj])

/-- C19, on a store with one doctor and no event. -/
theorem createEvent_result_ambiguous_witness :
    (Mutation.createEvent [⟨"1", "Angela", "CMU-clinic", "vaccine-department", []⟩]
      ⟨"1", "Existing event", "null", "null"⟩).1 = .ok [⟨"Existing event", "null", "null"⟩] ∧
    (Mutation.createEvent [⟨"1", "Angela", "CMU-clinic", "vaccine-department", []⟩]
      ⟨"1", "Existing event", "null", "null"⟩).2 =
      [⟨"1", "Angela", "CMU-clinic", "vaccine-department",
        [⟨1, ⟨"Existing event", "null", "null"⟩⟩]⟩] ∧
    (Mutation.createEvent [⟨"1", "Angela", "CMU-clinic", "vaccine-department", []⟩]
      ⟨"1", "Existing event", "null", "null"⟩).2 ≠
      [⟨"1", "Angela", "CMU-clinic", "vaccine-department", []⟩] ∧
    Mutation.createEvent
      [⟨"1", "Angela", "CMU-clinic", "vaccine-department",
        [⟨1, ⟨"Existing event", "null", "null"⟩⟩]⟩]
      ⟨"1", "Existing event", "null", "null"⟩ =
      (.ok [⟨"Existing event", "null", "null"⟩],
       [⟨"1", "Angela", "CMU-clinic", "vaccine-department",
        [⟨1, ⟨"Existing event", "null", "null"⟩⟩]⟩]) :=
  have h := createEvent_result_ambiguous
    [⟨"1", "Angela", "CMU-clinic", "vaccine-department", []⟩] "1"
    ⟨"1", "Angela", "CMU-clinic", "vaccine-department", []⟩ rfl rfl
  ⟨h.1, rfl, h.2.2.1, h.2.2.2⟩

end Registry
